import Mathlib

/-!
Verification of the job-queue / rate-limit / provider-fallback core of the
`radicalize_me_public` repository, shallowly embedded in Lean 4.

The embedding follows the Python source:
* `src/helpers/queue_manager.py` — `QueueItem`, `QueueManager` (enqueue,
  position recomputation, consumer loop, persistence, recovery),
* `src/helpers/common_helpers.py` — `CommonHelpers.check_rate_limit`,
* `src/helpers/search_apis.py` — `SearchAPIManager.search` (provider
  fallback with retry rounds),
* `src/helpers/research_pipeline.py` / `src/handlers/bot_handler.py` —
  the pipeline's provider loop and the handler's response wrapping.

Python dicts are modelled as insertion-ordered association lists, the
`asyncio.Queue` of jobs as the list of job ids it holds (the queued
objects live in `active_items`, aliased by id, exactly as the Python
objects are shared between the queue and the `active_items` dict).
Time is an explicit parameter; raised exceptions are `Except` errors.
-/

set_option maxHeartbeats 1000000

/-- Mirrors the handler response dict built by
`BotHandler.handle_request` (src/handlers/bot_handler.py): only the
fields the claims mention are kept (`status`, `status_code` of the
surrounding `create_response`, and the `topic`/`summary` payload). -/
structure HandlerResponse where
  status : String
  status_code : Nat
  topic : String
  summary : String
deriving Repr, DecidableEq

/-- Mirrors the `QueueItem` dataclass of `src/helpers/queue_manager.py`:
id, user, channel, query, timestamp, status (one of "queued",
"processing", "completed", "failed"), position, optional result and
optional error. -/
structure QueueItem where
  id : String
  user_id : String
  channel_id : String
  query : String
  timestamp : Nat
  status : String := "queued"
  position : Nat := 0
  result : Option HandlerResponse := none
  error : Option String := none
deriving Repr, DecidableEq

/-- State of a `QueueManager`: the capacity, the ids sitting in the
`asyncio.Queue` (FIFO, head first), the `active_items` dict (as an
insertion-ordered association list), and `current_item`. -/
structure QMState where
  max_queue_size : Nat
  queueIds : List String
  active_items : List (String × QueueItem)
  current_item : Option String
deriving Repr, DecidableEq

/-- Python `dict[key]` lookup on the association list (first match). -/
def lookupItem : List (String × QueueItem) → String → Option QueueItem
  | [], _ => none
  | kv :: rest, id => if kv.1 = id then some kv.2 else lookupItem rest id

/-- Apply `f` to the entry stored under `id` (in-place object mutation of
the dict value, as Python mutates the shared `QueueItem` object). -/
def mapItem (items : List (String × QueueItem)) (id : String) (f : QueueItem → QueueItem) :
    List (String × QueueItem) :=
  items.map (fun kv => if kv.1 = id then (kv.1, f kv.2) else kv)

/-- Python `dict[key] = value`: overwrite in place if present, else append. -/
def dictInsert (items : List (String × QueueItem)) (id : String) (item : QueueItem) :
    List (String × QueueItem) :=
  if (lookupItem items id).isSome then
    items.map (fun kv => if kv.1 = id then (kv.1, item) else kv)
  else
    items ++ [(id, item)]

/-- The drain-and-reinsert loop of `QueueManager._update_queue_positions`
(src/helpers/queue_manager.py lines 105-122): items are taken out of the
queue in FIFO order and their `position` field is set to 1, 2, 3, …
(`position` starts at 1 in the source), then put back in the same order. -/
def update_positions_aux (items : List (String × QueueItem)) :
    List String → Nat → List (String × QueueItem)
  | [], _ => items
  | id :: rest, pos =>
      update_positions_aux (mapItem items id (fun it => { it with position := pos })) rest (pos + 1)

/-- `QueueManager._update_queue_positions`: reassign positions 1, 2, …
to the items currently in the queue, in queue order; the queue order
itself is unchanged. -/
def update_queue_positions (s : QMState) : QMState :=
  { s with active_items := update_positions_aux s.active_items s.queueIds 1 }

/-- `QueueManager.add_to_queue` (lines 52-86): build the item with
default status "queued" and position 0; if `queue.qsize() >=
max_queue_size` raise `asyncio.QueueFull` ("Queue is at maximum
capacity") before any state change; otherwise put the item in the
queue, track it in `active_items`, recompute positions, and return the
(now position-stamped) item. Persistence is modelled separately in
`sys_step`. -/
def new_item (item_id user_id channel_id query : String) (ts : Nat) : QueueItem :=
  { id := item_id, user_id := user_id, channel_id := channel_id, query := query, timestamp := ts }

/-- The state after the successful branch of `add_to_queue`: the item is
put at the back of the queue, tracked in `active_items`, and all queued
positions are recomputed. -/
def add_state (s : QMState) (item_id user_id channel_id query : String) (ts : Nat) : QMState :=
  update_queue_positions
    { s with queueIds := s.queueIds ++ [item_id],
             active_items := dictInsert s.active_items item_id
               (new_item item_id user_id channel_id query ts) }

def add_to_queue (s : QMState) (item_id user_id channel_id query : String) (ts : Nat) :
    Except String (QueueItem × QMState) :=
  if s.queueIds.length ≥ s.max_queue_size then
    .error "Queue is at maximum capacity"
  else
    .ok ((lookupItem (add_state s item_id user_id channel_id query ts).active_items item_id).getD
          (new_item item_id user_id channel_id query ts),
        add_state s item_id user_id channel_id query ts)

/-- `QueueManager.get_user_queue_position` (lines 243-250): minimum
`position` among the user's items whose status is "queued", else none. -/
def get_user_queue_position (s : QMState) (user_id : String) : Option Nat :=
  let ps := (s.active_items.filter
      (fun kv => kv.2.user_id == user_id && kv.2.status == "queued")).map
      (fun kv : String × QueueItem => kv.2.position)
  match ps with
  | [] => none
  | p :: rest => some (rest.foldl Nat.min p)

/-- `QueueManager._load_queue_state` (lines 223-241): restore
`active_items` from the persisted snapshot, demoting any item whose
status is "processing" to "queued". The `asyncio.Queue` itself is the
fresh empty queue built in `__init__`; nothing is put back into it. -/
def load_queue_state (max_queue_size : Nat) (loaded : List (String × QueueItem)) : QMState :=
  { max_queue_size := max_queue_size
    queueIds := []
    current_item := none
    active_items := loaded.foldl
      (fun items kv =>
        dictInsert items kv.1
          (if kv.2.status = "processing" then { kv.2 with status := "queued" } else kv.2))
      [] }

/-- The head of one `_queue_processor` iteration (lines 128-143):
`queue.get()` pops the FIFO head (suspending — `none` — when empty),
`current_item` is set and the item's status becomes "processing".
No persistence write happens here. -/
def begin_processing (s : QMState) : Option (String × QMState) :=
  match s.queueIds with
  | [] => none
  | id :: rest =>
      let items := mapItem s.active_items id (fun it => { it with status := "processing" })
      some (id, { s with queueIds := rest, current_item := some id, active_items := items })

/-- Notifications sent through the `discord_notifier` collaborator. -/
inductive Notification where
  | processing_started (id : String)
  | result (id : String)
  | error (id : String)
deriving Repr, DecidableEq

/-- The tail of one `_queue_processor` iteration (lines 145-190): on a
normal return of `bot_handler.handle_request` store the result and mark
"completed" and send the result notification; on an exception store the
error string and mark "failed" and send the error notification; in both
cases clear `current_item`, recompute the remaining positions and (in
`sys_step`) persist. -/
def finish_processing (s : QMState) (id : String) (hres : Except String HandlerResponse) :
    QMState × Notification :=
  match hres with
  | .ok r =>
      let items := mapItem s.active_items id (fun it => { it with result := some r, status := "completed" })
      let s1 := { s with active_items := items, current_item := none }
      (update_queue_positions s1, .result id)
  | .error e =>
      let items := mapItem s.active_items id (fun it => { it with error := some e, status := "failed" })
      let s1 := { s with active_items := items, current_item := none }
      (update_queue_positions s1, .error id)

/-- A full `_queue_processor` iteration: dequeue, mark processing,
notify "processing started" when the dequeued item's position is > 0,
run the handler (its outcome is the `hres` parameter), then finish.
Returns `none` when the queue is empty (the loop suspends). -/
def consumer_iteration (s : QMState) (hres : Except String HandlerResponse) :
    Option (QMState × List Notification) :=
  match begin_processing s with
  | none => none
  | some (id, s1) =>
      let startNotifs :=
        if ((lookupItem s1.active_items id).map (fun it => it.position)).getD 0 > 0 then
          [Notification.processing_started id]
        else []
      let fin := finish_processing s1 id hres
      some (fin.1, startNotifs ++ [fin.2])

/-! ### Persistence-tracking system: which steps write the snapshot

`_save_queue_state` (lines 203-221) writes `active_items` as a full
snapshot. It is called from `add_to_queue` (line 79) and from the
`finally` block of the processor iteration (line 187) — but not at the
queued→processing transition (lines 131-136). -/

structure SysState where
  mem : QMState
  persisted : List (String × QueueItem)
deriving Repr, DecidableEq

inductive Event where
  | enqueue (item_id user_id channel_id query : String) (ts : Nat)
  | beginJob
  | finishJob (hres : Except String HandlerResponse)

/-- One observable step of the system, recording when the snapshot file
is (re)written. A failed enqueue raises before mutating anything; a
`beginJob` on an empty queue or a `finishJob` with no current item is a
no-op (the consumer is suspended). -/
def sys_step (σ : SysState) (e : Event) : SysState :=
  match e with
  | .enqueue id u c q ts =>
      match add_to_queue σ.mem id u c q ts with
      | .error _ => σ
      | .ok x => { mem := x.2, persisted := x.2.active_items }
  | .beginJob =>
      match begin_processing σ.mem with
      | none => σ
      | some x => { σ with mem := x.2 }
  | .finishJob hres =>
      match σ.mem.current_item with
      | none => σ
      | some id =>
          let s1 := (finish_processing σ.mem id hres).1
          { mem := s1, persisted := s1.active_items }

def sys_run (σ : SysState) : List Event → SysState
  | [] => σ
  | e :: es => sys_run (sys_step σ e) es

/-! ### Association-list and position-recomputation lemmas -/

theorem lookupItem_mapItem_self (items : List (String × QueueItem)) (id : String)
    (f : QueueItem → QueueItem) :
    lookupItem (mapItem items id f) id = (lookupItem items id).map f := by
  induction items with
  | nil => rfl
  | cons kv rest ih =>
      by_cases h : kv.1 = id
      · simp [lookupItem, mapItem, h]
      · simpa [lookupItem, mapItem, h] using ih

theorem lookupItem_mapItem_ne (items : List (String × QueueItem)) (id id' : String)
    (f : QueueItem → QueueItem) (hne : id' ≠ id) :
    lookupItem (mapItem items id f) id' = lookupItem items id' := by
  have hne2 : id ≠ id' := fun he => hne he.symm
  induction items with
  | nil => rfl
  | cons kv rest ih =>
      by_cases h : kv.1 = id
      · simpa [lookupItem, mapItem, h, hne2] using ih
      · by_cases h2 : kv.1 = id'
        · simp [lookupItem, mapItem, h, h2, hne]
        · simpa [lookupItem, mapItem, h, h2] using ih

theorem lookup_updAux_not_mem (ids : List String) (items : List (String × QueueItem))
    (pos : Nat) (id : String) (h : id ∉ ids) :
    lookupItem (update_positions_aux items ids pos) id = lookupItem items id := by
  induction ids generalizing items pos with
  | nil => rfl
  | cons a rest ih =>
      have ha : id ≠ a := fun he => h (he ▸ List.mem_cons_self a rest)
      have hrest : id ∉ rest := fun hm => h (List.mem_cons_of_mem a hm)
      show lookupItem (update_positions_aux (mapItem items a _) rest (pos + 1)) id = _
      rw [ih _ _ hrest, lookupItem_mapItem_ne _ _ _ _ ha]

theorem lookup_updAux_get (ids : List String) (items : List (String × QueueItem)) (pos : Nat)
    (hnd : ids.Nodup) (i : Nat) (h : i < ids.length) :
    lookupItem (update_positions_aux items ids pos) (ids.get ⟨i, h⟩) =
      (lookupItem items (ids.get ⟨i, h⟩)).map (fun it => { it with position := pos + i }) := by
  induction ids generalizing items pos i with
  | nil => exact absurd h (by simp)
  | cons a rest ih =>
      obtain ⟨hna, hndr⟩ := List.nodup_cons.mp hnd
      match i with
      | 0 =>
          show lookupItem (update_positions_aux (mapItem items a _) rest (pos + 1)) a =
            (lookupItem items a).map _
          rw [lookup_updAux_not_mem rest _ _ a hna, lookupItem_mapItem_self]
          simp
      | Nat.succ j =>
          have hj : j < rest.length := by simpa using h
          show lookupItem (update_positions_aux (mapItem items a _) rest (pos + 1))
              (rest.get ⟨j, hj⟩) = (lookupItem items (rest.get ⟨j, hj⟩)).map _
          rw [ih _ _ hndr j hj]
          have hne : rest.get ⟨j, hj⟩ ≠ a := by
            intro he
            exact hna (he ▸ List.get_mem rest j hj)
          rw [lookupItem_mapItem_ne _ _ _ _ hne]
          have harith : pos + 1 + j = pos + (j + 1) := by omega
          rw [harith]

theorem lookup_updAux_map_invariant {α : Type} (g : QueueItem → α)
    (hg : ∀ it p, g { it with position := p } = g it)
    (ids : List String) (items : List (String × QueueItem)) (pos : Nat) (id : String) :
    (lookupItem (update_positions_aux items ids pos) id).map g = (lookupItem items id).map g := by
  induction ids generalizing items pos with
  | nil => rfl
  | cons a rest ih =>
      show (lookupItem (update_positions_aux (mapItem items a _) rest (pos + 1)) id).map g = _
      rw [ih]
      by_cases h : id = a
      · subst h
        rw [lookupItem_mapItem_self]
        cases lookupItem items id with
        | none => rfl
        | some it => simp [hg]
      · rw [lookupItem_mapItem_ne _ _ _ _ h]

theorem mapItem_mapItem (items : List (String × QueueItem)) (id : String)
    (f g : QueueItem → QueueItem) :
    mapItem (mapItem items id f) id g = mapItem items id (fun it => g (f it)) := by
  unfold mapItem
  rw [List.map_map]
  have hfun : ((fun kv : String × QueueItem => if kv.1 = id then (kv.1, g kv.2) else kv) ∘
      (fun kv : String × QueueItem => if kv.1 = id then (kv.1, f kv.2) else kv)) =
      fun kv : String × QueueItem => if kv.1 = id then (kv.1, g (f kv.2)) else kv := by
    funext kv
    by_cases h : kv.1 = id
    · simp [Function.comp, h]
    · simp [Function.comp, h]
  rw [hfun]

theorem mapItem_comm (items : List (String × QueueItem)) (id id' : String)
    (f g : QueueItem → QueueItem) (hne : id ≠ id') :
    mapItem (mapItem items id f) id' g = mapItem (mapItem items id' g) id f := by
  unfold mapItem
  rw [List.map_map, List.map_map]
  have hfun : ((fun kv : String × QueueItem => if kv.1 = id' then (kv.1, g kv.2) else kv) ∘
      (fun kv : String × QueueItem => if kv.1 = id then (kv.1, f kv.2) else kv)) =
      ((fun kv : String × QueueItem => if kv.1 = id then (kv.1, f kv.2) else kv) ∘
      (fun kv : String × QueueItem => if kv.1 = id' then (kv.1, g kv.2) else kv)) := by
    funext kv
    have hne' : id' ≠ id := Ne.symm hne
    by_cases h : kv.1 = id
    · have h2 : kv.1 ≠ id' := by rw [h]; exact hne
      simp [Function.comp, h, h2, hne]
    · by_cases h2 : kv.1 = id'
      · simp [Function.comp, h, h2, hne']
      · simp [Function.comp, h, h2]
  rw [hfun]

theorem updAux_mapItem_not_mem (ids : List String) (items : List (String × QueueItem))
    (pos : Nat) (id : String) (f : QueueItem → QueueItem) (h : id ∉ ids) :
    update_positions_aux (mapItem items id f) ids pos =
      mapItem (update_positions_aux items ids pos) id f := by
  induction ids generalizing items pos with
  | nil => rfl
  | cons a rest ih =>
      have ha : id ≠ a := fun he => h (he ▸ List.mem_cons_self a rest)
      have hrest : id ∉ rest := fun hm => h (List.mem_cons_of_mem a hm)
      show update_positions_aux (mapItem (mapItem items id f) a _) rest (pos + 1) =
        mapItem (update_positions_aux (mapItem items a _) rest (pos + 1)) id f
      rw [mapItem_comm _ _ _ _ _ ha, ih _ _ hrest]

theorem setPos_setPos (it : QueueItem) (p q : Nat) :
    ({ { it with position := p } with position := q } : QueueItem) = { it with position := q } :=
  rfl

theorem updAux_mapItem_absorb (ids : List String) (items : List (String × QueueItem))
    (pos p : Nat) (id : String) (h : id ∈ ids) :
    update_positions_aux (mapItem items id (fun it => { it with position := p })) ids pos =
      update_positions_aux items ids pos := by
  induction ids generalizing items pos with
  | nil => exact absurd h (by simp)
  | cons a rest ih =>
      by_cases hia : id = a
      · subst hia
        show update_positions_aux (mapItem (mapItem items id _) id _) rest (pos + 1) =
          update_positions_aux (mapItem items id _) rest (pos + 1)
        simp only [mapItem_mapItem]
      · have hr : id ∈ rest := by
          rcases List.mem_cons.mp h with h1 | h2
          · exact absurd h1 hia
          · exact h2
        show update_positions_aux (mapItem (mapItem items id _) a _) rest (pos + 1) =
          update_positions_aux (mapItem items a _) rest (pos + 1)
        rw [mapItem_comm _ _ _ _ _ hia, ih _ _ hr]

theorem updAux_idem (ids : List String) (items : List (String × QueueItem)) (pos : Nat) :
    update_positions_aux (update_positions_aux items ids pos) ids pos =
      update_positions_aux items ids pos := by
  induction ids generalizing items pos with
  | nil => rfl
  | cons a rest ih =>
      show update_positions_aux
          (mapItem (update_positions_aux (mapItem items a _) rest (pos + 1)) a _) rest (pos + 1) =
        update_positions_aux (mapItem items a _) rest (pos + 1)
      by_cases hmem : a ∈ rest
      · rw [updAux_mapItem_absorb _ _ _ _ _ hmem, ih]
      · have h1 := updAux_mapItem_not_mem rest items (pos + 1) a
          (fun it => { it with position := pos }) hmem
        rw [h1, updAux_mapItem_not_mem _ _ _ _ _ hmem, updAux_mapItem_not_mem _ _ _ _ _ hmem, ih]
        simp only [mapItem_mapItem]

/-! ### Rate limiter (`CommonHelpers`, src/helpers/common_helpers.py) -/

/-- State of `CommonHelpers`' rate limiting: `rate_limiter` maps an
operation name to its last-call timestamp, `rate_limit_seconds` maps it
to its configured minimum interval (`__init__`, lines 32-39). -/
structure RateLimiterState where
  rate_limiter : List (String × Int)
  rate_limit_seconds : List (String × Int)
deriving Repr, DecidableEq

/-- Python `dict.get(key, default-absent)` on an Int-valued dict. -/
def lookupKey : List (String × Int) → String → Option Int
  | [], _ => none
  | kv :: rest, k => if kv.1 = k then some kv.2 else lookupKey rest k

/-- Python `dict[key] = value` on an Int-valued dict. -/
def setKey (items : List (String × Int)) (k : String) (v : Int) : List (String × Int) :=
  if (lookupKey items k).isSome then
    items.map (fun kv => if kv.1 = k then (kv.1, v) else kv)
  else
    items ++ [(k, v)]

/-- The state built by `CommonHelpers.__init__`: both operations are
stamped with the construction time `t0`, and both minimum intervals are
10 seconds. -/
def init_rate_limiter (t0 : Int) : RateLimiterState :=
  { rate_limiter := [("web_search", t0), ("reddit_search", t0)]
    rate_limit_seconds := [("web_search", 10), ("reddit_search", 10)] }

/-- `CommonHelpers.check_rate_limit` (lines 207-213). `current_time` is
the value of `time.time()` sampled on entry. The body reads the last
call time with `.get(operation, 0)` (never raising, default 0), then
evaluates `current_time - last_operation < self.rate_limit_seconds[operation]`
— an unguarded dict access that raises `KeyError(operation)` for an
unconfigured name (modelled as `.error operation`). If the elapsed time
is below the interval it sleeps for the full interval
`rate_limit_seconds[operation]`, then stamps `current_time` (the entry
time) as the operation's last-call time. Returns the slept duration and
the new state. -/
def check_rate_limit (s : RateLimiterState) (operation : String) (current_time : Int) :
    Except String (Int × RateLimiterState) :=
  let last_operation := (lookupKey s.rate_limiter operation).getD 0
  match lookupKey s.rate_limit_seconds operation with
  | none => .error operation
  | some limit =>
      let slept := if current_time - last_operation < limit then limit else 0
      .ok (slept, { s with rate_limiter := setKey s.rate_limiter operation current_time })

/-! ### Pipeline and handler (`research_pipeline.py`, `bot_handler.py`) -/

/-- The result dict shape produced by `ResearchPipeline.process_query`:
topic, summary, tools used and pdf links (further fields are not needed
by the claims). -/
structure PipeDict where
  topic : String
  summary : String
  tools_used : List String
  pdf_links : List String
deriving Repr, DecidableEq

/-- Outcome of one LLM provider attempt inside
`ResearchPipeline.process_query`'s generation loop (lines 230-250): a
well-formed response that converts to the Pydantic model, or an
exception/invalid response (the loop treats both by moving on). -/
inductive ProviderOutcome where
  | ok (resp : PipeDict)
  | err (msg : String)
deriving Repr, DecidableEq

/-- The `for provider in self.llm_providers` loop of `process_query`
(lines 230-252): return the first provider's well-formed response; if
every provider fails, raise
`Exception("All LLM providers failed to generate response")` (line 252). -/
def generate_loop : List ProviderOutcome → Except String PipeDict
  | [] => .error "All LLM providers failed to generate response"
  | .ok r :: _ => .ok r
  | .err _ :: rest => generate_loop rest

/-- `ResearchPipeline.process_query` (lines 216-261): the generation
loop runs inside a top-level `try`; ANY exception — including the
"all providers failed" one — is caught at line 254 and converted into a
normally-returned error dict `{"topic": "Error", "summary":
"Analysis failed: …", "tools_used": [], "pdf_links": []}`. The function
never raises. -/
def process_query (outcomes : List ProviderOutcome) : PipeDict :=
  match generate_loop outcomes with
  | .ok r => r
  | .error e =>
      { topic := "Error", summary := "Analysis failed: " ++ e, tools_used := [], pdf_links := [] }

/-- `BotHandler.handle_request` (lines 14-107) on a pipeline value that
returned normally: the result dict is formatted (no step raises for the
dict shapes `process_query` produces), wrapped in a message whose
"status" field is "success", and passed to
`CommonHelpers.create_response(200, message)`, which — the message
already containing "status" — yields
`{"status": "success", "status_code": 200, …}`. -/
def handle_request (outcomes : List ProviderOutcome) : HandlerResponse :=
  let d := process_query outcomes
  { status := "success", status_code := 200, topic := d.topic, summary := d.summary }

/-! ### Provider-fallback search (`SearchAPIManager.search`, src/helpers/search_apis.py) -/

/-- What one interaction with a search API yields inside the `for api`
loop of `search` (lines 109-135): `rateLimited` when
`check_rate_limit(api)` is false (the api is skipped and NOT marked
tried), `ok results` when `search_with_api` returns (an empty list marks
the api tried and moves on), `exn` when `search_with_api` raises (the
api is marked tried). -/
inductive ApiOutcome where
  | rateLimited
  | ok (results : List String)
  | exn (msg : String)
deriving Repr, DecidableEq

/-- The fixed provider order of the `for` loop (line 109). -/
def api_order : List String := ["serpapi", "duckduckgo", "google"]

/-- Result of one pass of the `for api in [...]` loop: the successful
results if any api succeeded, the updated `tried_apis` set, and the
accumulated log of apis actually attempted (i.e. calls of
`search_with_api`), in order. -/
structure ForResult where
  found : Option (List String)
  tried : List String
  attempts : List String
deriving Repr, DecidableEq

/-- One pass of the `for api in ['serpapi', 'duckduckgo', 'google']`
loop of `search` (lines 109-135), parameterized by the outcome of each
api interaction in the current while-iteration `iter`. Apis already in
`tried_apis` are skipped (line 110-111); rate-limited apis are skipped
without being marked tried (lines 113-115); an api returning a
non-empty result list ends the call (lines 120-123); an empty result or
an exception marks the api tried (lines 124-135). -/
def run_for (outcome : Nat → String → ApiOutcome) (iter : Nat) :
    List String → List String → List String → ForResult
  | tried, attempts, [] => ⟨none, tried, attempts⟩
  | tried, attempts, api :: rest =>
      if api ∈ tried then run_for outcome iter tried attempts rest
      else
        match outcome iter api with
        | .rateLimited => run_for outcome iter tried attempts rest
        | .ok results =>
            if results.isEmpty then
              run_for outcome iter (tried ++ [api]) (attempts ++ [api]) rest
            else
              ⟨some results, tried, attempts ++ [api]⟩
        | .exn _ => run_for outcome iter (tried ++ [api]) (attempts ++ [api]) rest

/-- The `while retry_count < max_retries` loop of `search` (lines
107-147), with `max_retries = 3`. After a full pass, if all 3 apis have
been tried the retry count is incremented and — when another retry
remains — `tried_apis` is cleared (line 143) before the next round.
When the while condition fails the call raises
`Exception("All search APIs failed after maximum retries")` (line 147).
`fuel` bounds the number of while-iterations modelled (the Python loop
can spin forever when every api stays rate-limited); `none` means the
fuel ran out. The second component of the result is the full attempt
log. -/
def search_loop (outcome : Nat → String → ApiOutcome) :
    Nat → Nat → Nat → List String → List String →
    Option (Except String (List String) × List String)
  | 0, _, _, _, _ => none
  | fuel + 1, iter, retry_count, tried, attempts =>
      if retry_count < 3 then
        let r := run_for outcome iter tried attempts api_order
        match r.found with
        | some results => some (.ok results, r.attempts)
        | none =>
            if r.tried.length = 3 then
              if retry_count + 1 < 3 then
                search_loop outcome fuel (iter + 1) (retry_count + 1) [] r.attempts
              else
                search_loop outcome fuel (iter + 1) (retry_count + 1) r.tried r.attempts
            else
              search_loop outcome fuel (iter + 1) retry_count r.tried r.attempts
      else
        some (.error "All search APIs failed after maximum retries", attempts)

/-- `SearchAPIManager.search`: the full call starts with
`retry_count = 0` and an empty `tried_apis` set. -/
def search (outcome : Nat → String → ApiOutcome) (fuel : Nat) :
    Option (Except String (List String) × List String) :=
  search_loop outcome fuel 0 0 [] []

/-! ### Further association-list lemmas -/

theorem lookupItem_overwrite (items : List (String × QueueItem)) (id : String) (item : QueueItem)
    (hp : (lookupItem items id).isSome) :
    lookupItem (items.map (fun kv => if kv.1 = id then (kv.1, item) else kv)) id = some item := by
  induction items with
  | nil => simp [lookupItem] at hp
  | cons kv rest ih =>
      by_cases h : kv.1 = id
      · simp [lookupItem, h]
      · simp only [lookupItem, h, if_false] at hp
        simpa [lookupItem, h] using ih hp

theorem lookupItem_append_single (items : List (String × QueueItem)) (id : String)
    (item : QueueItem) (hp : lookupItem items id = none) :
    lookupItem (items ++ [(id, item)]) id = some item := by
  induction items with
  | nil => simp [lookupItem]
  | cons kv rest ih =>
      by_cases h : kv.1 = id
      · simp [lookupItem, h] at hp
      · simp only [lookupItem, h, if_false] at hp
        simpa [lookupItem, h] using ih hp

theorem lookupItem_dictInsert_self (items : List (String × QueueItem)) (id : String)
    (item : QueueItem) :
    lookupItem (dictInsert items id item) id = some item := by
  unfold dictInsert
  by_cases hp : (lookupItem items id).isSome
  · rw [if_pos hp]
    exact lookupItem_overwrite items id item hp
  · rw [if_neg hp]
    exact lookupItem_append_single items id item (by
      cases h : lookupItem items id with
      | none => rfl
      | some it => rw [h] at hp; simp at hp)

/-- Clear the position field; everything `_update_queue_positions` does
is invisible through this projection. -/
def clearPos (it : QueueItem) : QueueItem := { it with position := 0 }

theorem lookup_updAux_clearPos (ids : List String) (items : List (String × QueueItem))
    (pos : Nat) (id : String) :
    (lookupItem (update_positions_aux items ids pos) id).map clearPos =
      (lookupItem items id).map clearPos :=
  lookup_updAux_map_invariant clearPos (fun _ _ => rfl) ids items pos id

theorem lookup_updAux_status (ids : List String) (items : List (String × QueueItem))
    (pos : Nat) (id : String) :
    (lookupItem (update_positions_aux items ids pos) id).map (fun it => it.status) =
      (lookupItem items id).map (fun it => it.status) :=
  lookup_updAux_map_invariant (fun it => it.status) (fun _ _ => rfl) ids items pos id


/-! ### Concrete fixtures used by counterexamples and witnesses -/

def emptyQM (cap : Nat) : QMState :=
  { max_queue_size := cap, queueIds := [], active_items := [], current_item := none }

def itemA : QueueItem :=
  { id := "a", user_id := "u", channel_id := "c", query := "qa", timestamp := 0 }

def itemB : QueueItem :=
  { id := "b", user_id := "v", channel_id := "c", query := "qb", timestamp := 1 }

def sAB : QMState :=
  { max_queue_size := 5, queueIds := ["a", "b"],
    active_items := [("a", itemA), ("b", itemB)], current_item := none }

def procItem : QueueItem :=
  { id := "j1", user_id := "u", channel_id := "c", query := "q", timestamp := 0,
    status := "processing", position := 1 }

/-! ### C1 — queue positions -/

/-- **C1, claim as stated is false.** The claim says a queued job's
`position` equals its 0-based rank (head = 0). In the code
`_update_queue_positions` starts numbering at 1: the single job of an
otherwise empty queue — rank 0, the next to run — gets `position = 1`,
and `get_user_queue_position` reports 1 for its user, not 0. -/
theorem C1_counterexample :
    (add_to_queue (emptyQM 2) "a" "u" "c" "hello" 0).toOption.map
      (fun p => p.1.position) = some 1 ∧
    (add_to_queue (emptyQM 2) "a" "u" "c" "hello" 0).toOption.bind
      (fun p => get_user_queue_position p.2 "u") = some 1 ∧
    (1 : Nat) ≠ 0 :=
  ⟨rfl, rfl, by decide⟩

/-- **C1 (amended):** positions are the 1-based rank among currently
queued jobs in arrival order — after recomputation the i-th job of the
queue (0-based index i) holds `position = i + 1`, so the head holds 1 —
and after a dequeue the recomputation gives the job at index i of the
remaining queue `position = i + 1`: the new head gets 1 and every job's
position drops by exactly 1, with the relative order (the queue list)
unchanged. Hypotheses: queued ids are distinct and every queued id is
tracked in `active_items` (always true of states the code builds). -/
theorem C1_positions_one_based (s : QMState) (hnd : s.queueIds.Nodup)
    (hmem : ∀ id ∈ s.queueIds, (lookupItem s.active_items id).isSome) :
    (∀ i (h : i < s.queueIds.length),
      (lookupItem (update_queue_positions s).active_items (s.queueIds.get ⟨i, h⟩)).map
        (fun it => it.position) = some (i + 1)) ∧
    (∀ hd rest, s.queueIds = hd :: rest →
      ∀ i (h : i < rest.length),
        (lookupItem (update_queue_positions { s with queueIds := rest }).active_items
          (rest.get ⟨i, h⟩)).map (fun it => it.position) = some (i + 1)) := by
  have main : ∀ (ids : List String) (items : List (String × QueueItem)),
      ids.Nodup → (∀ id ∈ ids, (lookupItem items id).isSome) →
      ∀ i (h : i < ids.length),
        (lookupItem (update_positions_aux items ids 1) (ids.get ⟨i, h⟩)).map
          (fun it => it.position) = some (i + 1) := by
    intro ids items hnd hmem i h
    rw [lookup_updAux_get ids items 1 hnd i h]
    obtain ⟨it, hit⟩ := Option.isSome_iff_exists.mp (hmem _ (List.get_mem ids i h))
    rw [hit]
    simp [Nat.add_comm]
  constructor
  · exact fun i h => main s.queueIds s.active_items hnd hmem i h
  · intro hd rest hq i h
    have hnd2 : rest.Nodup := by
      rw [hq] at hnd
      exact (List.nodup_cons.mp hnd).2
    have hmem2 : ∀ id ∈ rest, (lookupItem s.active_items id).isSome := by
      intro id hm
      exact hmem id (by rw [hq]; exact List.mem_cons_of_mem hd hm)
    exact main rest s.active_items hnd2 hmem2 i h

theorem C1_positions_one_based_witness :
    (lookupItem (update_queue_positions sAB).active_items "a").map
      (fun it => it.position) = some 1 ∧
    (lookupItem (update_queue_positions { sAB with queueIds := ["b"] }).active_items "b").map
      (fun it => it.position) = some 1 := by
  have h := C1_positions_one_based sAB (by decide) (by decide)
  exact ⟨h.1 0 (by decide), h.2 "a" ["b"] rfl 0 (by decide)⟩

/-! ### C9 — idempotence of position recomputation -/

/-- **C9:** recomputing queue positions is idempotent: applying
`_update_queue_positions` twice yields exactly the same state —
positions and queue order — as applying it once (for every state; the
numbering pass only writes position fields, never reads them). -/
theorem C9_recompute_idempotent (s : QMState) :
    update_queue_positions (update_queue_positions s) = update_queue_positions s := by
  simp [update_queue_positions, updAux_idem]

/-! ### C7 — bounded-capacity enqueue -/

/-- **C7:** an enqueue at `depth ≥ capacity` raises the distinct
queue-full error ("Queue is at maximum capacity", `asyncio.QueueFull`,
the code's realization of the spec's `CapacityExceeded`) before any
state change — no job is added, nothing is silently dropped — while an
enqueue at `depth < capacity` returns the created job (with the
caller's data, freshly queued) and appends it to the pending queue and
the tracked items. -/
theorem C7_capacity_check (s : QMState) (item_id user_id channel_id query : String) (ts : Nat) :
    (s.queueIds.length ≥ s.max_queue_size →
      add_to_queue s item_id user_id channel_id query ts =
        .error "Queue is at maximum capacity") ∧
    (s.queueIds.length < s.max_queue_size →
      ∃ item, add_to_queue s item_id user_id channel_id query ts =
          .ok (item, add_state s item_id user_id channel_id query ts) ∧
        item.id = item_id ∧ item.user_id = user_id ∧ item.channel_id = channel_id ∧
        item.query = query ∧ item.status = "queued" ∧
        (add_state s item_id user_id channel_id query ts).queueIds =
          s.queueIds ++ [item_id] ∧
        (lookupItem (add_state s item_id user_id channel_id query ts).active_items
          item_id).isSome) := by
  constructor
  · intro h
    unfold add_to_queue
    rw [if_pos h]
  · intro h
    have hn : ¬ s.queueIds.length ≥ s.max_queue_size := by omega
    have hbase : lookupItem (dictInsert s.active_items item_id
        (new_item item_id user_id channel_id query ts)) item_id =
        some (new_item item_id user_id channel_id query ts) :=
      lookupItem_dictInsert_self _ _ _
    have hcp : (lookupItem (add_state s item_id user_id channel_id query ts).active_items
        item_id).map clearPos = some (clearPos (new_item item_id user_id channel_id query ts)) := by
      unfold add_state update_queue_positions
      rw [lookup_updAux_clearPos, hbase]
      rfl
    obtain ⟨it, hit, hcpit⟩ : ∃ it,
        lookupItem (add_state s item_id user_id channel_id query ts).active_items item_id =
          some it ∧ clearPos it = clearPos (new_item item_id user_id channel_id query ts) := by
      cases hl : lookupItem (add_state s item_id user_id channel_id query ts).active_items
          item_id with
      | none => rw [hl] at hcp; simp at hcp
      | some it =>
          rw [hl] at hcp
          exact ⟨it, rfl, by simpa using hcp⟩
    refine ⟨it, ?_, ?_, ?_, ?_, ?_, ?_, ?_, ?_⟩
    · unfold add_to_queue
      rw [if_neg hn, hit]
      rfl
    · exact congrArg QueueItem.id hcpit
    · exact congrArg QueueItem.user_id hcpit
    · exact congrArg QueueItem.channel_id hcpit
    · exact congrArg QueueItem.query hcpit
    · exact congrArg QueueItem.status hcpit
    · rfl
    · rw [hit]; rfl

theorem C7_capacity_check_witness :
    (add_to_queue { emptyQM 1 with queueIds := ["a"], active_items := [("a", itemA)] }
        "b" "v" "c" "qb" 1 = .error "Queue is at maximum capacity") ∧
    (add_to_queue (emptyQM 1) "a" "u" "c" "qa" 0).toOption.map
      (fun p => (p.1.id, p.1.status)) = some ("a", "queued") := by
  constructor
  · exact (C7_capacity_check { emptyQM 1 with queueIds := ["a"], active_items := [("a", itemA)] }
      "b" "v" "c" "qb" 1).1 (by decide)
  · obtain ⟨item, heq, hid, _, _, _, hst, _, _⟩ :=
      (C7_capacity_check (emptyQM 1) "a" "u" "c" "qa" 0).2 (by decide)
    rw [heq]
    show some (item.id, item.status) = some ("a", "queued")
    rw [hid, hst]

/-! ### C4 — recovery of Processing jobs from a persisted snapshot -/

/-- **C4, claim as stated is false.** The claim says a job persisted in
Processing state is reinserted at recovery into the consumable queue
and will subsequently be dequeued. In `_load_queue_state` the job's
status is demoted to "queued" inside `active_items`, but nothing is put
back into the `asyncio.Queue`: after recovery the pending queue is
empty and the consumer's dequeue finds nothing — the job is never
processed. -/
theorem C4_counterexample :
    (load_queue_state 50 [("j1", procItem)]).queueIds = [] ∧
    begin_processing (load_queue_state 50 [("j1", procItem)]) = none ∧
    (lookupItem (load_queue_state 50 [("j1", procItem)]).active_items "j1").map
      (fun it => it.status) = some "queued" :=
  ⟨rfl, rfl, rfl⟩

theorem load_not_processing (loaded : List (String × QueueItem)) :
    ∀ (acc : List (String × QueueItem)),
      (∀ kv ∈ acc, kv.2.status ≠ "processing") →
      ∀ kv ∈ loaded.foldl
          (fun items kv =>
            dictInsert items kv.1
              (if kv.2.status = "processing" then { kv.2 with status := "queued" } else kv.2))
          acc,
        kv.2.status ≠ "processing" := by
  induction loaded with
  | nil => intro acc hacc; simpa using hacc
  | cons p rest ih =>
      intro acc hacc
      apply ih
      intro kv hkv
      dsimp only [] at hkv
      have hval : (if p.2.status = "processing" then { p.2 with status := "queued" }
          else p.2).status ≠ "processing" := by
        by_cases h : p.2.status = "processing" <;> simp [h]
      unfold dictInsert at hkv
      split at hkv
      · obtain ⟨kv2, hkv2, heq⟩ := List.mem_map.mp hkv
        by_cases h2 : kv2.1 = p.1
        · rw [if_pos h2] at heq
          rw [← heq]
          exact hval
        · rw [if_neg h2] at heq
          rw [← heq]
          exact hacc kv2 hkv2
      · rcases List.mem_append.mp hkv with h1 | h1
        · exact hacc kv h1
        · rw [List.mem_singleton.mp h1]
          exact hval

/-- **C4 (amended):** startup recovery demotes every job persisted as
Processing to Queued inside the tracked-items map, but it does NOT
reinsert any job into the consumable queue: after `_load_queue_state`
the pending queue is empty, a consumer dequeue suspends with nothing to
take, and no tracked item is left in Processing state. The claimed
"reinserted … so that it will subsequently be dequeued and processed"
does not happen. -/
theorem C4_recovery (cap : Nat) (loaded : List (String × QueueItem)) :
    (load_queue_state cap loaded).queueIds = [] ∧
    begin_processing (load_queue_state cap loaded) = none ∧
    ∀ kv ∈ (load_queue_state cap loaded).active_items, kv.2.status ≠ "processing" := by
  refine ⟨rfl, rfl, ?_⟩
  exact load_not_processing loaded [] (by simp)

theorem C4_recovery_witness :
    (load_queue_state 50 [("j1", procItem)]).queueIds = [] ∧
    begin_processing (load_queue_state 50 [("j1", procItem)]) = none ∧
    ({ procItem with status := "queued" } : QueueItem).status ≠ "processing" := by
  obtain ⟨h1, h2, h3⟩ := C4_recovery 50 [("j1", procItem)]
  exact ⟨h1, h2, h3 ("j1", { procItem with status := "queued" }) (by decide)⟩

/-! ### C8 — when the snapshot is persisted -/

/-- **C8, claim as stated is false.** The claim says every mutation —
including the Queued→Processing transition at dequeue — is followed by
a snapshot write, so the persisted snapshot always reflects the
in-memory records. Concretely: enqueue one job (persisted as "queued"),
then let the consumer dequeue it. In memory the job is now
"processing", but the snapshot on disk still says "queued" — the
dequeue transition wrote nothing. -/
theorem C8_counterexample :
    (sys_run ⟨emptyQM 2, []⟩ [Event.enqueue "a" "u" "c" "q" 0, Event.beginJob]).persisted ≠
      (sys_run ⟨emptyQM 2, []⟩ [Event.enqueue "a" "u" "c" "q" 0, Event.beginJob]).mem.active_items ∧
    ((sys_run ⟨emptyQM 2, []⟩ [Event.enqueue "a" "u" "c" "q" 0, Event.beginJob]).mem.active_items.map
      (fun kv => kv.2.status)) = ["processing"] ∧
    ((sys_run ⟨emptyQM 2, []⟩ [Event.enqueue "a" "u" "c" "q" 0, Event.beginJob]).persisted.map
      (fun kv => kv.2.status)) = ["queued"] :=
  ⟨by decide, rfl, rfl⟩

/-- **C8 (amended):** the snapshot is written after a successful
enqueue and after the terminal part of a consumer iteration (both leave
`persisted` equal to the in-memory `active_items`), but the
Queued→Processing transition at dequeue writes nothing: a `beginJob`
step leaves the persisted snapshot exactly as it was, so while a job is
being processed the snapshot does not reflect the in-memory records. -/
theorem C8_persist_points (σ : SysState) :
    ((sys_step σ Event.beginJob).persisted = σ.persisted) ∧
    (∀ item_id user_id channel_id query ts,
      σ.mem.queueIds.length < σ.mem.max_queue_size →
      (sys_step σ (Event.enqueue item_id user_id channel_id query ts)).persisted =
        (sys_step σ (Event.enqueue item_id user_id channel_id query ts)).mem.active_items) ∧
    (∀ hres id, σ.mem.current_item = some id →
      (sys_step σ (Event.finishJob hres)).persisted =
        (sys_step σ (Event.finishJob hres)).mem.active_items) := by
  refine ⟨?_, ?_, ?_⟩
  · show (match begin_processing σ.mem with
      | none => σ
      | some x => { σ with mem := x.2 }).persisted = σ.persisted
    cases begin_processing σ.mem with
    | none => rfl
    | some x => rfl
  · intro item_id user_id channel_id query ts h
    have hn : ¬ σ.mem.queueIds.length ≥ σ.mem.max_queue_size := by omega
    show (match add_to_queue σ.mem item_id user_id channel_id query ts with
      | .error _ => σ
      | .ok x => { mem := x.2, persisted := x.2.active_items }).persisted =
      (match add_to_queue σ.mem item_id user_id channel_id query ts with
      | .error _ => σ
      | .ok x => { mem := x.2, persisted := x.2.active_items }).mem.active_items
    unfold add_to_queue
    rw [if_neg hn]
  · intro hres id hc
    show (match σ.mem.current_item with
      | none => σ
      | some id =>
          { mem := (finish_processing σ.mem id hres).1,
            persisted := (finish_processing σ.mem id hres).1.active_items }).persisted =
      (match σ.mem.current_item with
      | none => σ
      | some id =>
          { mem := (finish_processing σ.mem id hres).1,
            persisted := (finish_processing σ.mem id hres).1.active_items }).mem.active_items
    rw [hc]

def σproc : SysState :=
  ⟨{ max_queue_size := 2, queueIds := [],
     active_items := [("a", { itemA with status := "processing", position := 1 })],
     current_item := some "a" }, []⟩

theorem C8_persist_points_witness :
    (sys_step ⟨emptyQM 2, []⟩ Event.beginJob).persisted = (⟨emptyQM 2, []⟩ : SysState).persisted ∧
    (sys_step ⟨emptyQM 2, []⟩ (Event.enqueue "a" "u" "c" "q" 0)).persisted =
      (sys_step ⟨emptyQM 2, []⟩ (Event.enqueue "a" "u" "c" "q" 0)).mem.active_items ∧
    (sys_step σproc (Event.finishJob (.error "boom"))).persisted =
      (sys_step σproc (Event.finishJob (.error "boom"))).mem.active_items :=
  ⟨(C8_persist_points ⟨emptyQM 2, []⟩).1,
   (C8_persist_points ⟨emptyQM 2, []⟩).2.1 "a" "u" "c" "q" 0 (by decide),
   (C8_persist_points σproc).2.2 (.error "boom") "a" rfl⟩

/-! ### C2 — job outcome when every pipeline provider fails -/

theorem generate_loop_all_err (outcomes : List ProviderOutcome)
    (hall : ∀ o ∈ outcomes, ∃ m, o = .err m) :
    generate_loop outcomes = .error "All LLM providers failed to generate response" := by
  induction outcomes with
  | nil => rfl
  | cons o rest ih =>
      obtain ⟨m, hm⟩ := hall o (List.mem_cons_self o rest)
      subst hm
      exact ih (fun o ho => hall o (List.mem_cons_of_mem _ ho))

theorem handle_request_all_err (outcomes : List ProviderOutcome)
    (hall : ∀ o ∈ outcomes, ∃ m, o = .err m) :
    handle_request outcomes =
      { status := "success", status_code := 200, topic := "Error",
        summary := "Analysis failed: All LLM providers failed to generate response" } := by
  unfold handle_request process_query
  rw [generate_loop_all_err outcomes hall]
  rfl

def itemQ : QueueItem :=
  { id := "a", user_id := "u", channel_id := "c", query := "q", timestamp := 0,
    status := "queued", position := 1 }

def sQ1 : QMState :=
  { max_queue_size := 2, queueIds := ["a"], active_items := [("a", itemQ)],
    current_item := none }

/-- **C2, claim as stated is false.** With every pipeline provider
failing, the pipeline's top-level `except` converts the failure into a
normally-returned error dict, the handler wraps it as a success, and
the consumer — seeing no exception — marks the job "completed" (error
field untouched) and sends the RESULT notification. The job is not
marked Failed and no error notification is sent. -/
theorem C2_counterexample :
    (consumer_iteration sQ1 (.ok (handle_request [ProviderOutcome.err "provider down"]))).map
      (fun p => ((lookupItem p.1.active_items "a").map (fun it => it.status),
                 (lookupItem p.1.active_items "a").map (fun it => it.error), p.2)) =
      some (some "completed", some none,
        [Notification.processing_started "a", Notification.result "a"]) ∧
    Notification.error "a" ∉
      [Notification.processing_started "a", Notification.result "a"] ∧
    (handle_request [ProviderOutcome.err "provider down"]).status = "success" :=
  ⟨rfl, by decide, rfl⟩

/-- **C2 (amended):** for every job whose pipeline call exhausts all
providers, `process_query` swallows the failure and returns an error
payload (topic "Error"), `handle_request` wraps it in a status-success,
code-200 response, and the consumer iteration marks the job Completed —
storing that response as the job result — and emits the result
notification; no error notification is emitted and the job is never
marked Failed. -/
theorem C2_swallowed_failure (outcomes : List ProviderOutcome)
    (hall : ∀ o ∈ outcomes, ∃ m, o = .err m)
    (s : QMState) (id : String) (rest : List String) (hq : s.queueIds = id :: rest)
    (hin : (lookupItem s.active_items id).isSome) :
    (handle_request outcomes).status = "success" ∧
    (handle_request outcomes).status_code = 200 ∧
    (handle_request outcomes).topic = "Error" ∧
    ∃ p, consumer_iteration s (.ok (handle_request outcomes)) = some p ∧
      (lookupItem p.1.active_items id).map (fun it => it.status) = some "completed" ∧
      Notification.result id ∈ p.2 ∧
      ∀ j, Notification.error j ∉ p.2 := by
  have hh := handle_request_all_err outcomes hall
  refine ⟨by rw [hh], by rw [hh], by rw [hh], ?_⟩
  have hbegin : begin_processing s = some (id,
      { s with queueIds := rest, current_item := some id,
               active_items := mapItem s.active_items id
                 (fun it => { it with status := "processing" }) }) := by
    unfold begin_processing
    rw [hq]
  unfold consumer_iteration
  rw [hbegin]
  refine ⟨_, rfl, ?_, ?_, ?_⟩
  · show (lookupItem (finish_processing
        { s with queueIds := rest, current_item := some id,
                 active_items := mapItem s.active_items id
                   (fun it => { it with status := "processing" }) } id
        (.ok (handle_request outcomes))).1.active_items id).map
      (fun it => it.status) = some "completed"
    unfold finish_processing update_queue_positions
    rw [lookup_updAux_status]
    rw [lookupItem_mapItem_self, lookupItem_mapItem_self]
    obtain ⟨it, hit⟩ := Option.isSome_iff_exists.mp hin
    rw [hit]
    rfl
  · exact List.mem_append_right _ (List.mem_singleton.mpr rfl)
  · intro j hj
    rcases List.mem_append.mp hj with h1 | h1
    · have h2 : Notification.error j ∈ [Notification.processing_started id] := by
        split at h1
        · exact h1
        · exact absurd h1 (List.not_mem_nil _)
      simp at h2
    · simp [finish_processing] at h1

theorem C2_swallowed_failure_witness :
    (handle_request [ProviderOutcome.err "x"]).status = "success" ∧
    (handle_request [ProviderOutcome.err "x"]).status_code = 200 ∧
    (handle_request [ProviderOutcome.err "x"]).topic = "Error" := by
  have h := C2_swallowed_failure [ProviderOutcome.err "x"]
    (by intro o ho; exact ⟨"x", by simpa using ho⟩) sQ1 "a" [] rfl (by decide)
  exact ⟨h.1, h.2.1, h.2.2.1⟩

/-! ### C5 — rate limiter sleep amount and timestamp -/

theorem lookupKey_setKey_self (items : List (String × Int)) (k : String) (v : Int) :
    lookupKey (setKey items k v) k = some v := by
  unfold setKey
  by_cases hp : (lookupKey items k).isSome
  · rw [if_pos hp]
    induction items with
    | nil => simp [lookupKey] at hp
    | cons kv rest ih =>
        by_cases h : kv.1 = k
        · simp [lookupKey, h]
        · simp only [lookupKey, h, if_false] at hp
          simpa [lookupKey, h] using ih hp
  · rw [if_neg hp]
    induction items with
    | nil => simp [lookupKey]
    | cons kv rest ih =>
        by_cases h : kv.1 = k
        · rw [lookupKey, if_pos h] at hp
          simp at hp
        · rw [lookupKey, if_neg h] at hp
          simpa [lookupKey, h] using ih hp

/-- **C5, claim as stated is false.** Take the freshly constructed
helper (both operations last stamped at time 0) and call
`check_rate_limit("web_search")` at time 3: the elapsed time is 3 < 10,
the claim says the call should suspend for the remaining delta
10 − 3 = 7 and stamp the return time (3 + 10 = 13); the code sleeps the
FULL interval 10 and stamps the entry time 3. -/
theorem C5_counterexample :
    (check_rate_limit (init_rate_limiter 0) "web_search" 3).toOption.map Prod.fst = some 10 ∧
    (10 : Int) ≠ 10 - 3 ∧
    (check_rate_limit (init_rate_limiter 0) "web_search" 3).toOption.map
      (fun p => lookupKey p.2.rate_limiter "web_search") = some (some 3) ∧
    (3 : Int) ≠ 3 + 10 :=
  ⟨rfl, by decide, rfl, by decide⟩

/-- **C5 (amended):** when the elapsed time since the operation's last
call is below the configured minimum interval, `check_rate_limit`
suspends for the FULL configured interval (not the remaining delta; 0
when the interval has already passed), and it records the entry-sampled
time — the value of "now" taken BEFORE the sleep, not as of returning —
as the operation's last-call timestamp; the interval table is left
unchanged. -/
theorem C5_full_interval_sleep (s : RateLimiterState) (operation : String)
    (current_time limit : Int)
    (hlim : lookupKey s.rate_limit_seconds operation = some limit) :
    (check_rate_limit s operation current_time).toOption.map Prod.fst =
      some (if current_time - (lookupKey s.rate_limiter operation).getD 0 < limit
            then limit else 0) ∧
    (check_rate_limit s operation current_time).toOption.map
      (fun p => lookupKey p.2.rate_limiter operation) = some (some current_time) ∧
    (check_rate_limit s operation current_time).toOption.map
      (fun p => p.2.rate_limit_seconds) = some s.rate_limit_seconds := by
  unfold check_rate_limit
  rw [hlim]
  refine ⟨rfl, ?_, rfl⟩
  show some (lookupKey (setKey s.rate_limiter operation current_time) operation) =
    some (some current_time)
  rw [lookupKey_setKey_self]

theorem C5_full_interval_sleep_witness :
    (check_rate_limit (init_rate_limiter 0) "web_search" 3).toOption.map Prod.fst = some 10 ∧
    (check_rate_limit (init_rate_limiter 0) "web_search" 3).toOption.map
      (fun p => lookupKey p.2.rate_limiter "web_search") = some (some 3) := by
  have h := C5_full_interval_sleep (init_rate_limiter 0) "web_search" 3 10 (by decide)
  refine ⟨?_, h.2.1⟩
  have hval : (if (3 : Int) - (lookupKey (init_rate_limiter 0).rate_limiter
      "web_search").getD 0 < 10 then (10 : Int) else 0) = 10 := by decide
  exact h.1.trans (congrArg some hval)

/-! ### C10 — unconfigured operation names raise KeyError -/

/-- **C10:** calling `check_rate_limit` with any operation name other
than the two configured in `__init__` ("web_search", "reddit_search")
raises `KeyError` — `self.rate_limit_seconds[operation]` is an
unguarded dict access (the preceding `self.rate_limiter.get(operation, 0)`
is guarded and does not raise) — while a call with a configured name
never raises. -/
theorem C10_unconfigured_keyerror (operation : String) (t0 current_time : Int) :
    (operation ≠ "web_search" → operation ≠ "reddit_search" →
      check_rate_limit (init_rate_limiter t0) operation current_time = .error operation) ∧
    ((operation = "web_search" ∨ operation = "reddit_search") →
      (check_rate_limit (init_rate_limiter t0) operation current_time).toOption.isSome = true) := by
  constructor
  · intro h1 h2
    have hl : lookupKey (init_rate_limiter t0).rate_limit_seconds operation = none := by
      simp [init_rate_limiter, lookupKey, Ne.symm h1, Ne.symm h2]
    unfold check_rate_limit
    rw [hl]
  · rintro (h | h) <;> subst h <;>
      simp [check_rate_limit, init_rate_limiter, lookupKey, Except.toOption]

theorem C10_unconfigured_keyerror_witness :
    check_rate_limit (init_rate_limiter 0) "bogus" 5 = .error "bogus" ∧
    (check_rate_limit (init_rate_limiter 0) "web_search" 5).toOption.isSome = true :=
  ⟨(C10_unconfigured_keyerror "bogus" 0 5).1 (by decide) (by decide),
   (C10_unconfigured_keyerror "web_search" 0 5).2 (Or.inl rfl)⟩

/-! ### C3 — re-attempting an exhausted provider -/

/-- **C3, claim as stated is false.** With every api failing on every
attempt, one `search` call runs three retry rounds: serpapi is
exhausted first (attempt 0), duckduckgo is attempted after it (attempt
1) — and serpapi is attempted AGAIN (attempts 3 and 6), because
`tried_apis.clear()` wipes the exhausted set between rounds. The full
attempt log of the single call shows serpapi attempted 3 times. -/
theorem C3_counterexample :
    (search (fun _ _ => ApiOutcome.exn "boom") 4).map Prod.snd =
      some ["serpapi", "duckduckgo", "google", "serpapi", "duckduckgo", "google",
            "serpapi", "duckduckgo", "google"] ∧
    (search (fun _ _ => ApiOutcome.exn "boom") 4).map
      (fun p => p.2.count "serpapi") = some 3 ∧
    (3 : Nat) ≠ 1 :=
  ⟨rfl, rfl, by decide⟩

theorem run_for_attempts_extend (outcome : Nat → String → ApiOutcome) (iter : Nat) :
    ∀ (apis tried attempts : List String),
      ∃ extra, (run_for outcome iter tried attempts apis).attempts = attempts ++ extra ∧
        ∀ a ∈ extra, a ∉ tried
  | [], tried, attempts => ⟨[], by simp [run_for], by simp⟩
  | api :: rest, tried, attempts => by
      by_cases hmem : api ∈ tried
      · obtain ⟨extra, he, hn⟩ := run_for_attempts_extend outcome iter rest tried attempts
        exact ⟨extra, by simp [run_for, hmem, he], hn⟩
      · cases ho : outcome iter api with
        | rateLimited =>
            obtain ⟨extra, he, hn⟩ := run_for_attempts_extend outcome iter rest tried attempts
            exact ⟨extra, by simp [run_for, hmem, ho, he], hn⟩
        | ok results =>
            by_cases hres : results.isEmpty
            · obtain ⟨extra, he, hn⟩ :=
                run_for_attempts_extend outcome iter rest (tried ++ [api]) (attempts ++ [api])
              refine ⟨api :: extra, ?_, ?_⟩
              · simp [run_for, hmem, ho, hres, he]
              · intro a ha
                rcases List.mem_cons.mp ha with h1 | h1
                · rw [h1]; exact hmem
                · exact fun hx => hn a h1 (List.mem_append_left _ hx)
            · refine ⟨[api], ?_, ?_⟩
              · simp [run_for, hmem, ho, hres]
              · intro a ha
                rw [List.mem_singleton.mp ha]
                exact hmem
        | exn msg =>
            obtain ⟨extra, he, hn⟩ :=
              run_for_attempts_extend outcome iter rest (tried ++ [api]) (attempts ++ [api])
            refine ⟨api :: extra, ?_, ?_⟩
            · simp [run_for, hmem, ho, he]
            · intro a ha
              rcases List.mem_cons.mp ha with h1 | h1
              · rw [h1]; exact hmem
              · exact fun hx => hn a h1 (List.mem_append_left _ hx)

/-- **C3 (amended):** within one retry round the property holds — an
api already in the `tried_apis` set (exhausted or deemed non-retryable)
is never attempted in any later pass over the provider list of that
round: every new entry of the attempt log comes from outside the tried
set. It is only across rounds, where `tried_apis.clear()` resets the
set, that an exhausted provider is attempted again (see the
counterexample). -/
theorem C3_no_reattempt_within_round (outcome : Nat → String → ApiOutcome) (iter : Nat)
    (tried attempts : List String) (api : String) (h : api ∈ tried) :
    api ∉ ((run_for outcome iter tried attempts api_order).attempts).drop attempts.length := by
  obtain ⟨extra, he, hn⟩ := run_for_attempts_extend outcome iter api_order tried attempts
  rw [he, List.drop_left]
  exact fun hx => hn api hx h

theorem C3_no_reattempt_within_round_witness :
    "serpapi" ∉ ((run_for (fun _ _ => ApiOutcome.exn "e") 1 ["serpapi"] []
      api_order).attempts).drop 0 :=
  C3_no_reattempt_within_round (fun _ _ => ApiOutcome.exn "e") 1 ["serpapi"] [] "serpapi"
    (by decide)

/-! ### C6 — the exception raised when every provider is exhausted -/

/-- **C6, claim as stated is false.** When every provider is exhausted
the call does terminate by raising, but the exception is the generic
`Exception("All search APIs failed after maximum retries")`: it carries
no per-provider error summaries at all — two runs whose providers fail
with entirely different errors raise exactly the same exception value. -/
theorem C6_counterexample :
    (search (fun _ _ => ApiOutcome.exn "provider error A") 4).map Prod.fst =
      some (Except.error "All search APIs failed after maximum retries") ∧
    (search (fun _ _ => ApiOutcome.exn "provider error A") 4).map Prod.fst =
      (search (fun _ _ => ApiOutcome.exn "totally different error B") 4).map Prod.fst :=
  ⟨rfl, rfl⟩

theorem search_loop_succ (outcome : Nat → String → ApiOutcome) (fuel iter retry_count : Nat)
    (tried attempts : List String) :
    search_loop outcome (fuel + 1) iter retry_count tried attempts =
      if retry_count < 3 then
        let r := run_for outcome iter tried attempts api_order
        match r.found with
        | some results => some (.ok results, r.attempts)
        | none =>
            if r.tried.length = 3 then
              if retry_count + 1 < 3 then
                search_loop outcome fuel (iter + 1) (retry_count + 1) [] r.attempts
              else
                search_loop outcome fuel (iter + 1) (retry_count + 1) r.tried r.attempts
            else
              search_loop outcome fuel (iter + 1) retry_count r.tried r.attempts
      else
        some (.error "All search APIs failed after maximum retries", attempts) :=
  rfl

theorem run_for_all_fail (outcome : Nat → String → ApiOutcome) (iter : Nat)
    (attempts : List String)
    (hfail : ∀ api, (∃ m, outcome iter api = .exn m) ∨ outcome iter api = .ok []) :
    run_for outcome iter [] attempts api_order =
      ⟨none, ["serpapi", "duckduckgo", "google"],
        attempts ++ ["serpapi", "duckduckgo", "google"]⟩ := by
  rcases hfail "serpapi" with ⟨m1, e1⟩ | e1 <;>
    rcases hfail "duckduckgo" with ⟨m2, e2⟩ | e2 <;>
    rcases hfail "google" with ⟨m3, e3⟩ | e3 <;>
    simp [run_for, api_order, e1, e2, e3]

theorem search_loop_round (outcome : Nat → String → ApiOutcome) (fuel iter rc : Nat)
    (attempts : List String) (hrc : rc < 3)
    (hfail : ∀ api, (∃ m, outcome iter api = .exn m) ∨ outcome iter api = .ok []) :
    search_loop outcome (fuel + 1) iter rc [] attempts =
      if rc + 1 < 3 then
        search_loop outcome fuel (iter + 1) (rc + 1) [] (attempts ++ api_order)
      else
        search_loop outcome fuel (iter + 1) (rc + 1) ["serpapi", "duckduckgo", "google"]
          (attempts ++ api_order) := by
  rw [search_loop_succ, if_pos hrc]
  simp only [run_for_all_fail outcome iter attempts hfail]
  norm_num [api_order]

/-- **C6 (amended):** if every provider fails on every attempt, the
call terminates after the three retry rounds by raising the single
generic exception with the fixed message
"All search APIs failed after maximum retries" — `AllProvidersFailed`
with one error summary per provider does not exist in the code; the
raised value carries no per-provider information (it is independent of
the providers' actual errors), while the attempt log shows each of the
three providers was attempted once per round. -/
theorem C6_generic_exception (outcome : Nat → String → ApiOutcome)
    (hfail : ∀ i api, (∃ m, outcome i api = .exn m) ∨ outcome i api = .ok []) :
    search outcome 4 =
      some (.error "All search APIs failed after maximum retries",
        ["serpapi", "duckduckgo", "google", "serpapi", "duckduckgo", "google",
         "serpapi", "duckduckgo", "google"]) := by
  show search_loop outcome (3 + 1) 0 0 [] [] = _
  rw [search_loop_round outcome 3 0 0 [] (by norm_num) (fun api => hfail 0 api),
    if_pos (by norm_num)]
  show search_loop outcome (2 + 1) 1 1 [] ([] ++ api_order) = _
  rw [search_loop_round outcome 2 1 1 ([] ++ api_order) (by norm_num) (fun api => hfail 1 api),
    if_pos (by norm_num)]
  show search_loop outcome (1 + 1) 2 2 [] (([] ++ api_order) ++ api_order) = _
  rw [search_loop_round outcome 1 2 2 (([] ++ api_order) ++ api_order) (by norm_num)
    (fun api => hfail 2 api), if_neg (by norm_num)]
  show search_loop outcome (0 + 1) 3 3 ["serpapi", "duckduckgo", "google"]
      ((([] ++ api_order) ++ api_order) ++ api_order) = _
  rw [search_loop_succ, if_neg (by norm_num)]
  simp [api_order]

theorem C6_generic_exception_witness :
    search (fun _ _ => ApiOutcome.exn "e") 4 =
      some (.error "All search APIs failed after maximum retries",
        ["serpapi", "duckduckgo", "google", "serpapi", "duckduckgo", "google",
         "serpapi", "duckduckgo", "google"]) :=
  C6_generic_exception (fun _ _ => ApiOutcome.exn "e") (fun _ _ => Or.inl ⟨"e", rfl⟩)
